import Mathlib

/-!
Verification of the StudyTap retrieval-augmented answer pipeline.

This file gives a shallow embedding of the core retrieval/answer pipeline of
the StudyTap backend — `backend/app/kendra_client.py` (URI normalisation,
tenant-scope filtering, quality filtering, the result-collection loop of
`query_kendra`) and `backend/app/routers/chat.py` (the local fallback
retriever, insufficiency-based citation suppression, chat auto-titling, and
the per-message orchestration of `send_message`) — and proves the behavioural
properties stated in the specification.

Python strings are modelled as `List Char` and the relevant Python string
primitives (`strip`, `lower`, `split`, `rsplit`, substring containment via
`in`, slicing) are defined below, following CPython semantics on the inputs
the code actually handles.  Machine-level caveats: `Char.toLower`,
`Char.isAlphanum` and `Char.isWhitespace` model the ASCII behaviour of the
Python originals, and the single floating-point comparison in the source
(`alphanumeric_chars < len(excerpt) * 0.3`) is modelled by the exact integer
comparison `10 * alphanumeric_chars < 3 * len excerpt`, which agrees with the
binary64 evaluation on all integer operands.
-/

namespace StudyTap

/-- Python strings are modelled as lists of characters. -/
abbrev Str := List Char

/-! ### Python string primitives -/

/-- Python `s.lower()` (ASCII model). -/
def pyLower (s : Str) : Str := s.map Char.toLower

/-- Python `s.strip()`: remove leading and trailing whitespace. -/
def pyStrip (s : Str) : Str :=
  ((s.dropWhile Char.isWhitespace).reverse.dropWhile Char.isWhitespace).reverse

/-- Python `needle in haystack`: substring containment. -/
def pyIn (needle : Str) : Str → Bool
  | [] => needle.isEmpty
  | c :: rest => needle.isPrefixOf (c :: rest) || pyIn needle rest

/-- Split a string at every character satisfying `p`, keeping empty pieces
(the shape underlying both Python `split(",")` and `split()`). -/
def pySplitIf (p : Char → Bool) (s : Str) : List Str :=
  s.foldr
    (fun c acc =>
      match acc with
      | [] => [[c]]
      | cur :: rest => if p c then [] :: cur :: rest else (c :: cur) :: rest)
    [[]]

/-- Python `s.split(sep)` for a one-character separator (keeps empty pieces). -/
def pySplitOnChar (sep : Char) (s : Str) : List Str :=
  pySplitIf (fun c => c = sep) s

/-- Python `s.split()`: split on whitespace runs, dropping empty pieces. -/
def pySplitWs (s : Str) : List Str :=
  (pySplitIf Char.isWhitespace s).filter (fun w => !w.isEmpty)

/-- Split off the part of `s` before the first occurrence of `sep`, together
with the remainder after it; `none` when `sep` does not occur. -/
def splitFirst (sep : Char) : Str → Option (Str × Str)
  | [] => none
  | c :: rest =>
    if c = sep then some ([], rest)
    else
      match splitFirst sep rest with
      | none => none
      | some (pre, post) => some (c :: pre, post)

/-- Python `s.split(sep, maxsplit)` for a one-character separator: at most
`maxsplit` splits, the unsplit remainder becomes the last element. -/
def pySplitMax (sep : Char) : Nat → Str → List Str
  | 0, s => [s]
  | n + 1, s =>
    match splitFirst sep s with
    | none => [s]
    | some (pre, post) => pre :: pySplitMax sep n post

/-- Python `s.rsplit(sep, 1)[0]`: everything before the last occurrence of
`sep`, or `s` itself when `sep` does not occur. -/
def pyRsplitLast (sep : Char) (s : Str) : Str :=
  if sep ∈ s then ((s.reverse.dropWhile (fun c => c ≠ sep)).drop 1).reverse
  else s

/-! ### `kendra_client.py` — Key/URI Normalizer (lines 157–193) -/

/-- The netloc delimiters of CPython's `urllib.parse._splitnetloc`:
`/`, `?`, `#`. -/
def isNetlocDelim (c : Char) : Bool := c = '/' || c = '?' || c = '#'

/-- Models `urllib.parse.urlsplit` restricted to the path component, for a
URI beginning `https://`: the netloc runs from after the `//` to the first
`/`, `?` or `#`; an unbalanced `[`/`]` pair in the netloc raises
`ValueError("Invalid IPv6 URL")` (modelled as `none`); otherwise the
fragment is split off at the first `#` of the remainder, then the query at
the first `?`, and the path is what is left.  (CPython ≥ 3.11 additionally
rejects invalid *balanced*-bracket hosts; every theorem below either keeps
brackets out of the netloc or demands an unbalanced pair, where all CPython
versions agree.) -/
def urlsplitPath (uri : Str) : Option Str :=
  let rest := uri.drop 8
  let netloc := rest.takeWhile (fun c => !isNetlocDelim c)
  if ('[' ∈ netloc ∧ ']' ∉ netloc) ∨ (']' ∈ netloc ∧ '[' ∉ netloc) then none
  else
    let url1 := rest.drop netloc.length
    let noFragment := url1.takeWhile (fun c => c ≠ '#')
    let noQuery := noFragment.takeWhile (fun c => c ≠ '?')
    some noQuery

/-- CPython's `urllib.parse._splitparams` on a path known to contain `;`:
when the path has a `/`, cut at the first `;` at-or-after the last `/`
(leaving the path unchanged when the last segment has no `;`); otherwise cut
at the first `;`. -/
def splitparams (path : Str) : Str :=
  if '/' ∈ path then
    let lastSeg := (path.reverse.takeWhile (fun c => c ≠ '/')).reverse
    if ';' ∈ lastSeg then
      path.take (path.length - lastSeg.length) ++
        lastSeg.takeWhile (fun c => c ≠ ';')
    else path
  else path.takeWhile (fun c => c ≠ ';')

/-- The `.path` attribute of `urllib.parse.urlparse(uri)` for a URI
beginning `https://`: `urlsplit`, then — because `https` is in
`uses_params` — `;params` is split off the last path segment whenever the
path contains a `;`.  `none` models `urlparse` raising. -/
def urlparsePath (uri : Str) : Option Str :=
  match urlsplitPath uri with
  | none => none
  | some path => some (if ';' ∈ path then splitparams path else path)

/-- Split a string at the first occurrence of a (non-empty) separator
substring, as Python `s.split(sep, 1)` does; `none` when the separator does
not occur. -/
def splitFirstSub (sep : Str) : Str → Option (Str × Str)
  | [] => none
  | c :: rest =>
    if sep.isPrefixOf (c :: rest) then some ([], (c :: rest).drop sep.length)
    else
      match splitFirstSub sep rest with
      | none => none
      | some (pre, post) => some (c :: pre, post)

/-- The `except` fallback of lines 180–193, reached when `urlparse` raises:
if `".amazonaws.com"` occurs in the URI, split once on `".amazonaws.com/"`
and take the remainder (keeping the URI when that longer separator is
absent); else if `".s3."` occurs, split once on `".s3."` and take what
follows the next `/` (keeping the URI when there is none); else keep the
URI unchanged. -/
def httpsExceptFallback (documentUri : Str) : Str :=
  if pyIn ".amazonaws.com".data documentUri then
    match splitFirstSub ".amazonaws.com/".data documentUri with
    | some (_, post) => post
    | none => documentUri
  else if pyIn ".s3.".data documentUri then
    match splitFirstSub ".s3.".data documentUri with
    | some (_, post) =>
      if '/' ∈ post then (post.dropWhile (fun c => c ≠ '/')).drop 1
      else documentUri
    | none => documentUri
  else documentUri

/-- `kendra_client.py` lines 163–193: extract the storage-key part from the
various URI formats Kendra may return.  `s3://bucket/key` is split on `/`
with maxsplit 3 and the 4th part taken when present; `https://...` is parsed
with `urlparse` and the path's leading slashes stripped (Python
`lstrip("/")`), falling back to the textual `.amazonaws.com` / `.s3.`
extraction when `urlparse` raises; anything else is returned unchanged. -/
def normalizeUri (documentUri : Str) : Str :=
  if "s3://".data.isPrefixOf documentUri then
    let parts := pySplitMax '/' 3 documentUri
    if 4 ≤ parts.length then parts.getD 3 [] else documentUri
  else if "https://".data.isPrefixOf documentUri then
    match urlparsePath documentUri with
    | some path => path.dropWhile (fun c => c = '/')
    | none => httpsExceptFallback documentUri
  else documentUri

/-! ### `kendra_client.py` — Tenant Scope Matcher (lines 140–142, 196–220) -/

/-- `f"universities/{university_id}/"` (line 140). -/
def s3UniversityPattern (universityId : Nat) : Str :=
  "universities/".data ++ (toString universityId).data ++ "/".data

/-- `f"branches/{branch_id}/"` (line 141). -/
def s3BranchPattern (branchId : Nat) : Str :=
  "branches/".data ++ (toString branchId).data ++ "/".data

/-- `f"subjects/{subject_id}/"` (line 142). -/
def s3SubjectPattern (subjectId : Nat) : Str :=
  "subjects/".data ++ (toString subjectId).data ++ "/".data

/-- Lines 140–142 and 196–220 of `query_kendra`: decide whether a hit with
normalized key `uriToCheck` is in scope.  The branch/subject patterns are
built only when the id is truthy in Python (`if branch_id`), i.e. nonzero;
a missing pattern makes the corresponding `has_*` default to `True`.
`disable_filtering` (argument) or `KENDRA_DISABLE_FILTERING` (environment
override) force inclusion unconditionally. -/
def shouldInclude (disableFiltering kendraDisableFiltering : Bool)
    (universityId : Nat) (subjectId branchId : Option Nat) (uriToCheck : Str) : Bool :=
  let s3BranchPat : Option Str :=
    match branchId with
    | some bid => if bid = 0 then none else some (s3BranchPattern bid)
    | none => none
  let s3SubjectPat : Option Str :=
    match subjectId with
    | some sid => if sid = 0 then none else some (s3SubjectPattern sid)
    | none => none
  let hasUniversity := pyIn (s3UniversityPattern universityId) uriToCheck
  let hasBranch :=
    match s3BranchPat with
    | some pat => pyIn pat uriToCheck
    | none => true
  let hasSubject :=
    match s3SubjectPat with
    | some pat => pyIn pat uriToCheck
    | none => true
  if disableFiltering || kendraDisableFiltering then true
  else
    match subjectId with
    | some _ => hasUniversity && hasSubject
    | none =>
      match branchId with
      | some _ => hasUniversity && hasBranch
      | none => false

/-! ### `kendra_client.py` — Quality Filter (`_is_quality_result`, lines 47–84) -/

/-- The uniform result dictionary built at lines 305–313 of `query_kendra`. -/
structure ResultRecord where
  excerpt : Str
  documentTitle : Str
  documentUri : Str
  s3Key : Str
  pageNumber : Option Int
  relevanceScore : Str
  itemType : Str
deriving DecidableEq, Repr

/-- Default of the `min_excerpt_length` parameter of `_is_quality_result`. -/
def qualityMinExcerptLength : Nat := 30

/-- `_is_quality_result` (lines 47–84): reject when the stripped excerpt is
shorter than `minExcerptLength`, has fewer than 5 whitespace-separated words,
or is less than 30% alphanumeric; accept otherwise.  The relevance score is
read at line 68 but never used (check 2 is a no-op in the source), and the
`question` argument is likewise unused since the keyword checks were removed.
The float comparison `alphanumeric_chars < len(excerpt) * 0.3` is modelled by
the exact `10 * alphanumericChars < 3 * excerpt.length`. -/
def isQualityResult (result : ResultRecord) (question : Str)
    (minExcerptLength : Nat) : Bool :=
  if (pyStrip result.excerpt).length < minExcerptLength then false
  else if (pySplitWs (pyStrip result.excerpt)).length < 5 then false
  else if 10 * ((pyStrip result.excerpt).filter Char.isAlphanum).length <
      3 * (pyStrip result.excerpt).length then false
  else true

/-! ### `kendra_client.py` — Retrieval Adapter (`query_kendra`, lines 87–349)

A raw Kendra `ResultItems` entry is modelled with the fields the loop reads,
each optional field mirroring a `dict.get` in the source; the nested JSON
shapes (`DocumentExcerpt.Text`, the `AdditionalAttributes` entry with key
`AnswerText`, the three page-number locations, `ScoreAttributes.
ScoreConfidence`) are flattened to typed optional fields. -/

/-- `item.get("DocumentTitle", "Unknown")` may be a plain string or a dict
with a `Text` key (lines 226–230). -/
inductive TitleField
  | strTitle (s : Str)
  | dictTitle (text : Option Str)
deriving DecidableEq, Repr

/-- One entry of `response["ResultItems"]`, restricted to the fields read by
the loop at lines 152–337. -/
structure KendraItem where
  documentUri : Str
  itemType : Option Str
  documentTitle : TitleField
  documentExcerptText : Option Str
  answerText : Option Str
  excerptPageNumber : Option Int
  additionalPageNumber : Option Int
  excerptMetadataPageNumber : Option Int
  scoreConfidence : Option Str
deriving DecidableEq, Repr

/-- `item.get("Type", "DOCUMENT")` (lines 154, 281). -/
def itemKind (item : KendraItem) : Str := item.itemType.getD "DOCUMENT".data

/-- Title extraction, lines 226–230: a dict title yields its `Text` (default
`"Unknown"`); a plain title is used when truthy, else `"Unknown"`. -/
def extractDocumentTitle : TitleField → Str
  | .dictTitle text => text.getD "Unknown".data
  | .strTitle s => if s.isEmpty then "Unknown".data else s

/-- Excerpt extraction, lines 279–303: DOCUMENT items read
`DocumentExcerpt.Text`; ANSWER items read the `AnswerText` additional
attribute and fall back to `DocumentExcerpt.Text` when that is empty; any
other type leaves the excerpt empty. -/
def extractExcerptText (item : KendraItem) : Str :=
  let kind := itemKind item
  if kind = "DOCUMENT".data then item.documentExcerptText.getD []
  else if kind = "ANSWER".data then
    let answer := item.answerText.getD []
    if answer.isEmpty then item.documentExcerptText.getD [] else answer
  else []

/-- Page-number extraction, lines 238–277: three metadata locations tried in
order, first hit wins. -/
def extractPageNumber (item : KendraItem) : Option Int :=
  match item.excerptPageNumber with
  | some n => some n
  | none =>
    match item.additionalPageNumber with
    | some n => some n
    | none => item.excerptMetadataPageNumber

/-- The result dictionary built at lines 305–313. -/
def mkResult (item : KendraItem) : ResultRecord :=
  { excerpt := extractExcerptText item
    documentTitle := extractDocumentTitle item.documentTitle
    documentUri := item.documentUri
    s3Key := normalizeUri item.documentUri
    pageNumber := extractPageNumber item
    relevanceScore := item.scoreConfidence.getD "MEDIUM".data
    itemType := itemKind item }

/-- Line 316: `if result["excerpt"] and len(result["excerpt"].strip()) > 0`. -/
def excerptPresent (result : ResultRecord) : Bool :=
  !result.excerpt.isEmpty && !(pyStrip result.excerpt).isEmpty

/-- Line 320: `item_type == "ANSWER" or _is_quality_result(result, question)`. -/
def passesQuality (result : ResultRecord) (question : Str) : Bool :=
  result.itemType == "ANSWER".data
    || isQualityResult result question qualityMinExcerptLength

/-- The full per-item acceptance decision of the loop (scope filter, then
non-empty excerpt, then quality), as a single predicate. -/
def includeItem (disableFiltering kendraDisableFiltering : Bool)
    (universityId : Nat) (subjectId branchId : Option Nat)
    (question : Str) (item : KendraItem) : Bool :=
  shouldInclude disableFiltering kendraDisableFiltering universityId subjectId
      branchId (normalizeUri item.documentUri)
    && excerptPresent (mkResult item)
    && passesQuality (mkResult item) question

/-- The result-collection loop of `query_kendra` (lines 152–337): iterate the
raw items in response order, skip out-of-scope / empty / low-quality items,
append accepted results, and break as soon as `max_results` results have been
collected (line 327: `if len(results) >= max_results: break`). -/
def processItems (disableFiltering kendraDisableFiltering : Bool)
    (universityId : Nat) (subjectId branchId : Option Nat)
    (question : Str) (maxResults : Nat) :
    List KendraItem → List ResultRecord → List ResultRecord
  | [], results => results
  | item :: rest, results =>
    if shouldInclude disableFiltering kendraDisableFiltering universityId
        subjectId branchId (normalizeUri item.documentUri) then
      let result := mkResult item
      if excerptPresent result then
        if passesQuality result question then
          let results2 := results ++ [result]
          if maxResults ≤ results2.length then results2
          else
            processItems disableFiltering kendraDisableFiltering universityId
              subjectId branchId question maxResults rest results2
        else
          processItems disableFiltering kendraDisableFiltering universityId
            subjectId branchId question maxResults rest results
      else
        processItems disableFiltering kendraDisableFiltering universityId
          subjectId branchId question maxResults rest results
    else
      processItems disableFiltering kendraDisableFiltering universityId
        subjectId branchId question maxResults rest results

/-- Errors raised by `query_kendra` before touching the network: line 120
(Kendra not configured) and line 123 (neither subject nor branch scope).
Both are `ValueError`s in the source, distinguished by their message. -/
inductive KendraError
  | notConfigured
  | invalidScope
deriving DecidableEq, Repr

/-- Line 133: `PageSize=max_results * 3`. -/
def requestedPageSize (maxResults : Nat) : Nat := maxResults * 3

/-- `query_kendra` (lines 87–340).  The search-service response is passed in
as `responseItems` (`none` models a response without a `"ResultItems"` key);
the guard clauses at lines 119–123 run before the response is ever consulted,
which the embedding reflects by erroring independently of `responseItems`. -/
def query_kendra (kendraEnabled kendraDisableFiltering : Bool)
    (question : Str) (universityId : Nat) (subjectId branchId : Option Nat)
    (maxResults : Nat) (disableFiltering : Bool)
    (responseItems : Option (List KendraItem)) :
    Except KendraError (List ResultRecord) :=
  if !kendraEnabled then .error .notConfigured
  else if subjectId.isNone && branchId.isNone then .error .invalidScope
  else
    match responseItems with
    | some items =>
      .ok (processItems disableFiltering kendraDisableFiltering universityId
        subjectId branchId question maxResults items [])
    | none => .ok []

/-! ### `routers/chat.py` — Fallback Local Retriever (`send_message`, lines 309–365) -/

/-- A row of the local `MaterialChunk` table, restricted to the fields the
fallback retriever reads (`keywords` is the raw comma-separated string). -/
structure MaterialChunk where
  chunkId : Nat
  text : Str
  keywords : Str
  pageNumber : Option Nat
  heading : Option Str
deriving DecidableEq, Repr

/-- Line 340: `[k.strip().lower() for k in chunk.keywords.split(",") if k.strip()]`. -/
def chunkKeywordList (keywords : Str) : List Str :=
  (pySplitOnChar ',' keywords).filterMap (fun k =>
    let ks := pyStrip k
    if ks.isEmpty then none else some (pyLower ks))

/-- Line 312: `[w.strip() for w in question_lower.split() if len(w.strip()) > 2]`. -/
def questionWords (questionLower : Str) : List Str :=
  (pySplitWs questionLower).filterMap (fun w =>
    let ws := pyStrip w
    if 2 < ws.length then some ws else none)

/-- Line 341: a keyword match holds when some (non-empty) keyword occurs in
the lower-cased question, or some question word occurs in some keyword. -/
def keywordMatch (questionLower : Str) (qWords : List Str) (keywords : Str) : Bool :=
  (chunkKeywordList keywords).any (fun kw =>
    !kw.isEmpty && (pyIn kw questionLower || qWords.any (fun qw => pyIn qw kw)))

/-- The chunk-acceptance condition of the fallback loop: the chunk has a
truthy `keywords` string and the keyword match of line 341 succeeds. -/
def chunkMatches (question : Str) (chunk : MaterialChunk) : Bool :=
  !chunk.keywords.isEmpty
    && keywordMatch (pyLower question) (questionWords (pyLower question)) chunk.keywords

/-- The keyword-collection loop at lines 338–345: walk the chunks in storage
order, append each match, and break once 5 matches are collected. -/
def collectRelevantChunks (questionLower : Str) (qWords : List Str) :
    List MaterialChunk → List MaterialChunk → List MaterialChunk
  | [], relevant => relevant
  | chunk :: rest, relevant =>
    if !chunk.keywords.isEmpty then
      if keywordMatch questionLower qWords chunk.keywords then
        let relevant2 := relevant ++ [chunk]
        if 5 ≤ relevant2.length then relevant2
        else collectRelevantChunks questionLower qWords rest relevant2
      else collectRelevantChunks questionLower qWords rest relevant
    else collectRelevantChunks questionLower qWords rest relevant

/-- The fallback local retriever (lines 309–349): keyword matching capped at
5, then `chunks[:3]` when nothing matched but the scope has chunks, then
empty. -/
def fallbackRelevantChunks (question : Str) (chunks : List MaterialChunk) :
    List MaterialChunk :=
  let questionLower := pyLower question
  let qWords := questionWords questionLower
  let relevant := collectRelevantChunks questionLower qWords chunks []
  if relevant.isEmpty && !chunks.isEmpty then chunks.take 3 else relevant

/-! ### `routers/chat.py` — Answer Post-Processor (lines 432–451) -/

/-- The apostrophe character, U+0027. -/
def apos : Char := Char.ofNat 39

/-- The `insufficient_info_phrases` list, lines 434–443. -/
def insufficientInfoPhrases : List Str :=
  [ "i don".data ++ [apos] ++ "t have enough information".data
  , "don".data ++ [apos] ++ "t have enough information".data
  , "not enough information".data
  , "insufficient information".data
  , "please refer to your textbook".data
  , "refer to your textbook".data
  , "refer to your class notes".data
  , "please refer to your class notes".data ]

/-- Lines 445–446: lower-case the answer and test each phrase for substring
membership. -/
def hasInsufficientInfo (answerText : Str) : Bool :=
  let answerLower := pyLower answerText
  insufficientInfoPhrases.any (fun phrase => pyIn phrase answerLower)

/-- Lines 449–451: suppress every citation when the answer declares
insufficient information, otherwise pass the assembled list through. -/
def finalSources {α : Type} (answerText : Str) (sources : List α) : List α :=
  if hasInsufficientInfo answerText then [] else sources

/-- Line 458: `sources=final_sources if final_sources else None` on the
persisted BOT message. -/
def botMessageSources {α : Type} (answerText : Str) (sources : List α) :
    Option (List α) :=
  let fs := finalSources answerText sources
  if fs.isEmpty then none else some fs

/-! ### `routers/chat.py` — auto-titling (lines 412–424) -/

/-- Line 415: `default_titles = ("New chat", "Branch Chat", None)`; the chat
title column is nullable, hence `Option Str`. -/
def defaultTitles : List (Option Str) :=
  [some "New chat".data, some "Branch Chat".data, none]

/-- Lines 418–420: strip the question; when longer than 40 characters, take
the first 40 and cut back to before the last space (`rsplit(" ", 1)[0]`). -/
def deriveTitle (question : Str) : Str :=
  let title := pyStrip question
  if 40 < title.length then pyRsplitLast ' ' (title.take 40) else title

/-- Lines 413–424: when the current title is a placeholder, replace it by the
derived title and report it as `updated_title`; otherwise leave both alone.
Returns `(stored title after the message, updated_title)`. -/
def updateChatTitle (chatTitle : Option Str) (question : Str) :
    Option Str × Option Str :=
  if chatTitle ∈ defaultTitles then
    let t := deriveTitle question
    (some t, some t)
  else (chatTitle, none)

/-! ### `routers/chat.py` — Chat Turn Orchestrator tail (lines 402–469) -/

/-- A citation dictionary as assembled at lines 291–302 (Kendra sources) or
361–365 (local snippets); display-only, never inspected downstream. -/
structure CitationRecord where
  sourceType : Str
  title : Str
  uri : Option Str
  relevance : Option Str
  page : Option Int
deriving DecidableEq, Repr

/-- The response dictionary of `send_message`, lines 465–469. -/
structure ChatMessageReply where
  answer : Str
  sources : List CitationRecord
  chatTitle : Option Str
deriving DecidableEq, Repr

/-- Observable persistence/externally-visible steps of a chat turn, in
program order. -/
inductive TurnEvent
  | persistUser (message : Str)
  | setChatTitle (title : Str)
  | callModel (prompt : Str)
  | persistBot (message : Str) (sources : Option (List CitationRecord))
deriving DecidableEq, Repr

/-- The tail of `send_message` (lines 402–469), after retrieval and prompt
assembly: persist the USER message, auto-title, call the model (its outcome
is passed in as `modelResult`; `.error e` models `get_gemini_response`
raising, which line 430 converts to the answer `f"Error: {str(e)}"`), apply
the insufficiency post-processor, persist the BOT message, and return the
reply.  The first component lists the persistence/model events in the order
the source performs them. -/
def sendMessageTurn (chatTitle : Option Str) (question : Str)
    (sources : List CitationRecord) (fullPrompt : Str)
    (modelResult : Except Str Str) : List TurnEvent × ChatMessageReply :=
  let updatedTitle := (updateChatTitle chatTitle question).2
  let titleEvents : List TurnEvent :=
    match updatedTitle with
    | some t => [TurnEvent.setChatTitle t]
    | none => []
  let answerText : Str :=
    match modelResult with
    | .ok text => text
    | .error e => "Error: ".data ++ e
  let fs := finalSources answerText sources
  ([TurnEvent.persistUser question] ++ titleEvents
      ++ [TurnEvent.callModel fullPrompt]
      ++ [TurnEvent.persistBot answerText (botMessageSources answerText sources)],
    { answer := answerText, sources := fs, chatTitle := updatedTitle })

/-! ### Spec-side characterisation used for claim C9

Modelled from the claim's words, for comparison with `deriveTitle`: "the
longest whitespace-bounded prefix of length ≤ 40" of the (stripped)
question. -/

/-- A word boundary of `s` at position `n`: either the end of `s` or a
whitespace character at index `n`. -/
def wsBoundaryAt (s : Str) (n : Nat) : Bool :=
  decide (n = s.length)
    || (match s[n]? with
        | some c => c.isWhitespace
        | none => false)

/-- Length of the longest prefix of `s` that has length at most `limit` and
ends at a word boundary; `0` when no positive-length such prefix exists. -/
def specWsBoundedPrefixLen (s : Str) (limit : Nat) : Nat :=
  ((List.range (min limit s.length + 1)).filter (fun n => wsBoundaryAt s n)).foldr
    max 0

/-- The claim's characterisation of the derived title: the longest
whitespace-bounded prefix of the stripped question with length ≤ 40. -/
def specLongestTitle (question : Str) : Str :=
  let s := pyStrip question
  s.take (specWsBoundedPrefixLen s 40)

/-! ## Helper lemmas -/

/-- `pyIn` decides substring containment (`List.IsInfix`). -/
theorem pyIn_iff (needle haystack : Str) :
    pyIn needle haystack = true ↔ needle <:+: haystack := by
  induction haystack with
  | nil => simp [pyIn]
  | cons c rest ih =>
    simp [pyIn, Bool.or_eq_true, ih, List.infix_cons_iff,
      List.isPrefixOf_iff_prefix]

/-- `splitFirst` splits at the first occurrence of the separator. -/
theorem splitFirst_append_of_not_mem (sep : Char) (pre post : Str)
    (h : sep ∉ pre) :
    splitFirst sep (pre ++ sep :: post) = some (pre, post) := by
  induction pre with
  | nil => simp [splitFirst]
  | cons a rest ih =>
    have ha : ¬ a = sep := fun e => h (by simp [e])
    have hrest : sep ∉ rest := fun hm => h (by simp [hm])
    simp [splitFirst, ha, ih hrest]

/-- `dropWhile` strips a prefix of satisfied elements up to the first
failing one. -/
theorem dropWhile_append_cons {α : Type} (p : α → Bool) (pre : List α)
    (c : α) (post : List α) (hall : ∀ x ∈ pre, p x = true) (hc : p c = false) :
    (pre ++ c :: post).dropWhile p = c :: post := by
  induction pre with
  | nil => simp [List.dropWhile_cons, hc]
  | cons a rest ih =>
    have ha : p a = true := hall a (by simp)
    simpa [List.dropWhile_cons, ha] using ih (fun x hx => hall x (by simp [hx]))

/-- `takeWhile` keeps exactly the satisfied elements up to the first failing
one. -/
theorem takeWhile_append_cons {α : Type} (p : α → Bool) (pre : List α)
    (c : α) (post : List α) (hall : ∀ x ∈ pre, p x = true) (hc : p c = false) :
    (pre ++ c :: post).takeWhile p = pre := by
  induction pre with
  | nil => simp [List.takeWhile_cons, hc]
  | cons a rest ih =>
    have ha : p a = true := hall a (by simp)
    simpa [List.takeWhile_cons, ha] using ih (fun x hx => hall x (by simp [hx]))

/-- Decompose a list at the first occurrence of `sep` via
`takeWhile`/`dropWhile` with the predicate `(· ≠ sep)`. -/
theorem dropWhile_ne_of_mem (sep : Char) (l : Str) (h : sep ∈ l) :
    ∃ t, l.dropWhile (fun c => c ≠ sep) = sep :: t ∧
      l.takeWhile (fun c => c ≠ sep) ++ sep :: t = l ∧
      sep ∉ l.takeWhile (fun c => c ≠ sep) := by
  induction l with
  | nil => cases h
  | cons b bl ih =>
    by_cases hb : b = sep
    · subst hb
      exact ⟨bl, by simp [List.dropWhile_cons], by simp [List.takeWhile_cons],
        by simp [List.takeWhile_cons]⟩
    · have hmem : sep ∈ bl := by
        rcases List.mem_cons.mp h with h' | h'
        · exact absurd h'.symm hb
        · exact h'
      obtain ⟨t, h1, h2, h3⟩ := ih hmem
      refine ⟨t, ?_, ?_, ?_⟩
      · simpa [List.dropWhile_cons, hb] using h1
      · simpa [List.takeWhile_cons, hb] using h2
      · intro hmem2
        rw [List.takeWhile_cons, if_pos (by simp [hb])] at hmem2
        rcases List.mem_cons.mp hmem2 with h' | h'
        · exact hb h'.symm
        · exact h3 h'

/-- Python `rsplit(sep, 1)[0]` really cuts at the LAST separator: when `sep`
occurs in `s`, `s` splits as `pyRsplitLast sep s ++ sep :: rest` with no
further `sep` in `rest`. -/
theorem pyRsplitLast_spec (sep : Char) (s : Str) (h : sep ∈ s) :
    ∃ rest, s = pyRsplitLast sep s ++ sep :: rest ∧ sep ∉ rest := by
  obtain ⟨t, h1, h2, h3⟩ := dropWhile_ne_of_mem sep s.reverse (by simpa using h)
  refine ⟨(s.reverse.takeWhile (fun c => c ≠ sep)).reverse, ?_, ?_⟩
  · rw [pyRsplitLast, if_pos h, h1]
    calc s = (s.reverse).reverse := (List.reverse_reverse s).symm
      _ = ((s.reverse.takeWhile (fun c => c ≠ sep)) ++ sep :: t).reverse := by
            rw [h2]
      _ = ((sep :: t).drop 1).reverse ++
            sep :: (s.reverse.takeWhile (fun c => c ≠ sep)).reverse := by
            simp [List.reverse_append]
  · simpa [List.mem_reverse] using h3

/-! ## Claim theorems -/

/-- C1 (tenant/scope isolation): with filtering enabled (neither the
`disable_filtering` argument nor the `KENDRA_DISABLE_FILTERING` override
set), a hit survives the scope filter exactly when its normalized key
contains the `universities/{university_id}/` segment and, for a subject
scope, the `subjects/{subject_id}/` segment (resp. `branches/{branch_id}/`
for a branch scope); containment is positional, so acceptance is independent
of the order in which the two segments occur inside the key, and a key
missing either segment is rejected.  (Ids are the positive database primary
keys, whence the `0 <` hypotheses: a zero id is falsy in Python and would
skip pattern construction.) -/
theorem tenant_scope_isolation :
    (∀ (universityId subjectId : Nat) (branchId : Option Nat) (key : Str),
        0 < subjectId →
        (shouldInclude false false universityId (some subjectId) branchId key = true ↔
          s3UniversityPattern universityId <:+: key ∧
          s3SubjectPattern subjectId <:+: key)) ∧
    (∀ (universityId branchId : Nat) (key : Str),
        0 < branchId →
        (shouldInclude false false universityId none (some branchId) key = true ↔
          s3UniversityPattern universityId <:+: key ∧
          s3BranchPattern branchId <:+: key)) ∧
    (∀ (universityId subjectId : Nat) (branchId : Option Nat) (pre mid post : Str),
        0 < subjectId →
        shouldInclude false false universityId (some subjectId) branchId
            (pre ++ s3UniversityPattern universityId ++ mid ++
              s3SubjectPattern subjectId ++ post) = true ∧
        shouldInclude false false universityId (some subjectId) branchId
            (pre ++ s3SubjectPattern subjectId ++ mid ++
              s3UniversityPattern universityId ++ post) = true) := by
  have subj : ∀ (universityId subjectId : Nat) (branchId : Option Nat) (key : Str),
      0 < subjectId →
      (shouldInclude false false universityId (some subjectId) branchId key = true ↔
        s3UniversityPattern universityId <:+: key ∧
        s3SubjectPattern subjectId <:+: key) := by
    intro universityId subjectId branchId key h
    have hs : ¬ subjectId = 0 := Nat.pos_iff_ne_zero.mp h
    simp [shouldInclude, hs, pyIn_iff, Bool.and_eq_true]
  refine ⟨subj, ?_, ?_⟩
  · intro universityId branchId key h
    have hb : ¬ branchId = 0 := Nat.pos_iff_ne_zero.mp h
    simp [shouldInclude, hb, pyIn_iff, Bool.and_eq_true]
  · intro universityId subjectId branchId pre mid post h
    have huni1 : s3UniversityPattern universityId <:+:
        pre ++ s3UniversityPattern universityId ++ mid ++
          s3SubjectPattern subjectId ++ post :=
      ⟨pre, mid ++ s3SubjectPattern subjectId ++ post, by simp⟩
    have hsub1 : s3SubjectPattern subjectId <:+:
        pre ++ s3UniversityPattern universityId ++ mid ++
          s3SubjectPattern subjectId ++ post :=
      ⟨pre ++ s3UniversityPattern universityId ++ mid, post, by simp⟩
    have huni2 : s3UniversityPattern universityId <:+:
        pre ++ s3SubjectPattern subjectId ++ mid ++
          s3UniversityPattern universityId ++ post :=
      ⟨pre ++ s3SubjectPattern subjectId ++ mid, post, by simp⟩
    have hsub2 : s3SubjectPattern subjectId <:+:
        pre ++ s3SubjectPattern subjectId ++ mid ++
          s3UniversityPattern universityId ++ post :=
      ⟨pre, mid ++ s3UniversityPattern universityId ++ post, by simp⟩
    exact ⟨(subj universityId subjectId branchId _ h).mpr ⟨huni1, hsub1⟩,
      (subj universityId subjectId branchId _ h).mpr ⟨huni2, hsub2⟩⟩

/-- Witness for C1 at a concrete key: university 1, subject 2, with the
segments in both orders and a rejection when the subject segment is
missing. -/
theorem tenant_scope_isolation_witness :
    shouldInclude false false 1 (some 2) none
        "universities/1/branches/3/subjects/2/materials/u.pdf".data = true ∧
    shouldInclude false false 1 (some 2) none
        "subjects/2/universities/1/materials/u.pdf".data = true ∧
    shouldInclude false false 1 (some 2) none
        "universities/1/branches/3/subjects/20/materials/u.pdf".data = false := by
  refine ⟨?_, ?_, ?_⟩
  · have h1 : s3UniversityPattern 1 <:+:
        "universities/1/branches/3/subjects/2/materials/u.pdf".data := by decide
    have h2 : s3SubjectPattern 2 <:+:
        "universities/1/branches/3/subjects/2/materials/u.pdf".data := by decide
    exact (tenant_scope_isolation.1 1 2 none
      "universities/1/branches/3/subjects/2/materials/u.pdf".data (by decide)).mpr ⟨h1, h2⟩
  · have h1 : s3UniversityPattern 1 <:+:
        "subjects/2/universities/1/materials/u.pdf".data := by decide
    have h2 : s3SubjectPattern 2 <:+:
        "subjects/2/universities/1/materials/u.pdf".data := by decide
    exact (tenant_scope_isolation.1 1 2 none
      "subjects/2/universities/1/materials/u.pdf".data (by decide)).mpr ⟨h1, h2⟩
  · decide

/-- C2 (insufficiency suppression): when the lower-cased answer contains any
configured insufficiency phrase, the final citation list is empty and the
persisted BOT message's `sources` is `None`, regardless of the assembled
source list; otherwise the final citations are the assembled list
unchanged. -/
theorem insufficiency_suppression (answerText : Str) (sources : List CitationRecord) :
    (hasInsufficientInfo answerText = true →
        finalSources answerText sources = [] ∧
        botMessageSources answerText sources = none) ∧
    (hasInsufficientInfo answerText = false →
        finalSources answerText sources = sources) := by
  constructor
  · intro h
    refine ⟨by simp [finalSources, h], by simp [botMessageSources, finalSources, h]⟩
  · intro h
    simp [finalSources, h]

/-- Witness for C2: the model's refusal sentence empties the citation list
and nulls the persisted sources even with three assembled excerpts. -/
theorem insufficiency_suppression_witness :
    hasInsufficientInfo ("I don".data ++ [apos] ++
        "t have enough information in the provided notes to fully answer this.".data) = true ∧
    finalSources ("I don".data ++ [apos] ++
        "t have enough information in the provided notes to fully answer this.".data)
      ([⟨"kendra".data, "Doc A".data, some "u1".data, some "HIGH".data, some 3⟩,
        ⟨"kendra".data, "Doc B".data, some "u2".data, some "MEDIUM".data, none⟩,
        ⟨"snippet".data, "Doc C".data, none, none, some 1⟩] : List CitationRecord) = [] ∧
    botMessageSources ("I don".data ++ [apos] ++
        "t have enough information in the provided notes to fully answer this.".data)
      ([⟨"kendra".data, "Doc A".data, some "u1".data, some "HIGH".data, some 3⟩,
        ⟨"kendra".data, "Doc B".data, some "u2".data, some "MEDIUM".data, none⟩,
        ⟨"snippet".data, "Doc C".data, none, none, some 1⟩] : List CitationRecord) = none := by
  have h : hasInsufficientInfo ("I don".data ++ [apos] ++
      "t have enough information in the provided notes to fully answer this.".data) = true := by
    decide
  exact ⟨h, ((insufficiency_suppression _ _).1 h).1, ((insufficiency_suppression _ _).1 h).2⟩

/-- C6 (quality filter): a DOCUMENT excerpt is rejected whenever its
stripped length is below the configured minimum (default 30), whenever its
word count is below 5, and whenever its alphanumeric ratio is below 0.3
(`10·alnum < 3·len` exactly); it is accepted when all three pass.  An
ANSWER-kind item bypasses `_is_quality_result` entirely at line 320. -/
theorem quality_filter_behaviour :
    (∀ (result : ResultRecord) (question : Str),
        (pyStrip result.excerpt).length < qualityMinExcerptLength →
        isQualityResult result question qualityMinExcerptLength = false) ∧
    (∀ (result : ResultRecord) (question : Str),
        (pySplitWs (pyStrip result.excerpt)).length < 5 →
        isQualityResult result question qualityMinExcerptLength = false) ∧
    (∀ (result : ResultRecord) (question : Str),
        10 * ((pyStrip result.excerpt).filter Char.isAlphanum).length <
            3 * (pyStrip result.excerpt).length →
        isQualityResult result question qualityMinExcerptLength = false) ∧
    (∀ (result : ResultRecord) (question : Str),
        qualityMinExcerptLength ≤ (pyStrip result.excerpt).length →
        5 ≤ (pySplitWs (pyStrip result.excerpt)).length →
        3 * (pyStrip result.excerpt).length ≤
            10 * ((pyStrip result.excerpt).filter Char.isAlphanum).length →
        isQualityResult result question qualityMinExcerptLength = true) ∧
    (∀ (item : KendraItem) (question : Str),
        itemKind item = "ANSWER".data →
        passesQuality (mkResult item) question = true) := by
  refine ⟨?_, ?_, ?_, ?_, ?_⟩
  · intro result question h
    simp only [isQualityResult]
    rw [if_pos h]
  · intro result question h
    simp only [isQualityResult]
    by_cases h1 : (pyStrip result.excerpt).length < qualityMinExcerptLength
    · rw [if_pos h1]
    · rw [if_neg h1, if_pos h]
  · intro result question h
    simp only [isQualityResult]
    by_cases h1 : (pyStrip result.excerpt).length < qualityMinExcerptLength
    · rw [if_pos h1]
    · by_cases h2 : (pySplitWs (pyStrip result.excerpt)).length < 5
      · rw [if_neg h1, if_pos h2]
      · rw [if_neg h1, if_neg h2, if_pos h]
  · intro result question h1 h2 h3
    simp only [isQualityResult]
    rw [if_neg (by omega), if_neg (by omega), if_neg (by omega)]
  · intro item question h
    simp [passesQuality, mkResult, h]

/-- Witness for C6: a substantial excerpt is accepted, a 6-character one is
rejected, and a punctuation-only ANSWER item bypasses the filter. -/
theorem quality_filter_behaviour_witness :
    isQualityResult
        { excerpt := "A well formed excerpt with plenty of real content here.".data,
          documentTitle := [], documentUri := [], s3Key := [],
          pageNumber := none, relevanceScore := "MEDIUM".data,
          itemType := "DOCUMENT".data } [] qualityMinExcerptLength = true ∧
    isQualityResult
        { excerpt := "shorty".data, documentTitle := [], documentUri := [],
          s3Key := [], pageNumber := none, relevanceScore := "MEDIUM".data,
          itemType := "DOCUMENT".data } [] qualityMinExcerptLength = false := by
  constructor
  · exact quality_filter_behaviour.2.2.2.1 _ [] (by decide) (by decide) (by decide)
  · exact quality_filter_behaviour.1 _ [] (by decide)

/-- The keyword-collection loop of the fallback retriever is the
order-preserving filter of the chunk list truncated at 5 (with any partially
filled accumulator). -/
theorem collectRelevantChunks_eq (questionLower : Str) (qWords : List Str) :
    ∀ (chunks : List MaterialChunk) (acc : List MaterialChunk),
      acc.length < 5 →
      collectRelevantChunks questionLower qWords chunks acc =
        acc ++ (chunks.filter (fun c => !c.keywords.isEmpty &&
          keywordMatch questionLower qWords c.keywords)).take (5 - acc.length) := by
  intro chunks
  induction chunks with
  | nil =>
    intro acc hacc
    simp [collectRelevantChunks]
  | cons chunk rest ih =>
    intro acc hacc
    cases h1 : chunk.keywords.isEmpty with
    | true =>
      simp [collectRelevantChunks, h1, ih acc hacc]
    | false =>
      cases h2 : keywordMatch questionLower qWords chunk.keywords with
      | false =>
        simp [collectRelevantChunks, h1, h2, ih acc hacc]
      | true =>
        rcases Nat.lt_or_ge (acc.length + 1) 5 with h4 | h4
        · have hnotle : ¬ 5 ≤ acc.length + 1 := by omega
          have hlen : (acc ++ [chunk]).length < 5 := by
            simp
            omega
          have harith : 5 - acc.length = (5 - (acc.length + 1)) + 1 := by omega
          calc collectRelevantChunks questionLower qWords (chunk :: rest) acc
              = collectRelevantChunks questionLower qWords rest (acc ++ [chunk]) := by
                simp [collectRelevantChunks, h1, h2, hnotle]
            _ = (acc ++ [chunk]) ++
                  (rest.filter (fun c => !c.keywords.isEmpty &&
                    keywordMatch questionLower qWords c.keywords)).take
                    (5 - (acc ++ [chunk]).length) := ih (acc ++ [chunk]) hlen
            _ = acc ++ ((chunk :: rest).filter (fun c => !c.keywords.isEmpty &&
                    keywordMatch questionLower qWords c.keywords)).take
                    (5 - acc.length) := by
                rw [List.filter_cons]
                simp [h1, h2, harith, List.take_succ_cons, List.append_assoc]
        · have hle : 5 ≤ acc.length + 1 := h4
          have harith : 5 - acc.length = 1 := by omega
          calc collectRelevantChunks questionLower qWords (chunk :: rest) acc
              = acc ++ [chunk] := by
                simp [collectRelevantChunks, h1, h2, hle]
            _ = acc ++ ((chunk :: rest).filter (fun c => !c.keywords.isEmpty &&
                    keywordMatch questionLower qWords c.keywords)).take
                    (5 - acc.length) := by
                rw [List.filter_cons]
                simp [h1, h2, harith]

/-- C3 (fallback degradation ladder): the fallback local retriever accepts,
in storage order, exactly the chunks with a truthy keyword string whose
keyword list matches the question (some keyword occurs in the lower-cased
question, or some lower-cased question word of length > 2 occurs in some
keyword), stopping at 5 matches; when no chunk matches by keyword but the
scope has chunks, the result is exactly the first 3 chunks in storage order;
when the scope has no chunks, the result is empty. -/
theorem fallback_degradation_ladder (question : Str) (chunks : List MaterialChunk) :
    (fallbackRelevantChunks question chunks =
      (if ((chunks.filter (chunkMatches question)).take 5).isEmpty && !chunks.isEmpty
       then chunks.take 3
       else (chunks.filter (chunkMatches question)).take 5)) ∧
    (chunks = [] → fallbackRelevantChunks question chunks = []) ∧
    (chunks.filter (chunkMatches question) = [] → chunks ≠ [] →
      fallbackRelevantChunks question chunks = chunks.take 3) ∧
    (chunks.filter (chunkMatches question) ≠ [] →
      fallbackRelevantChunks question chunks =
        (chunks.filter (chunkMatches question)).take 5) := by
  have hcol := collectRelevantChunks_eq (pyLower question)
    (questionWords (pyLower question)) chunks [] (by simp)
  simp only [List.nil_append, Nat.sub_zero, List.length_nil] at hcol
  have hcol' : collectRelevantChunks (pyLower question)
      (questionWords (pyLower question)) chunks [] =
      (chunks.filter (chunkMatches question)).take 5 := hcol
  have hmain : fallbackRelevantChunks question chunks =
      (if ((chunks.filter (chunkMatches question)).take 5).isEmpty && !chunks.isEmpty
       then chunks.take 3
       else (chunks.filter (chunkMatches question)).take 5) := by
    simp only [fallbackRelevantChunks]
    rw [hcol']
  refine ⟨hmain, ?_, ?_, ?_⟩
  · rintro rfl
    simp [fallbackRelevantChunks, collectRelevantChunks]
  · intro hfe hne
    cases chunks with
    | nil => exact absurd rfl hne
    | cons c cs =>
      rw [hmain, hfe]
      simp
  · intro hne
    have hX : ((chunks.filter (chunkMatches question)).take 5).isEmpty = false := by
      cases hc : chunks.filter (chunkMatches question) with
      | nil => exact absurd hc hne
      | cons a l => simp
    simp [hmain, hX]

/-- Witness for C3: a keyword-matching chunk is returned; with no keyword
match the first chunks are returned in storage order. -/
theorem fallback_degradation_ladder_witness :
    fallbackRelevantChunks "what is dbms".data
      [⟨1, "t".data, "dbms,storage".data, none, none⟩] =
      [⟨1, "t".data, "dbms,storage".data, none, none⟩] ∧
    fallbackRelevantChunks "what is dbms".data
      [⟨2, "t".data, "cooking".data, none, none⟩,
       ⟨3, "u".data, [], none, none⟩] =
      [⟨2, "t".data, "cooking".data, none, none⟩,
       ⟨3, "u".data, [], none, none⟩] := by
  constructor
  · have h := (fallback_degradation_ladder "what is dbms".data
      [⟨1, "t".data, "dbms,storage".data, none, none⟩]).2.2.2 (by decide)
    rw [h]
    decide
  · have h := (fallback_degradation_ladder "what is dbms".data
      [⟨2, "t".data, "cooking".data, none, none⟩,
       ⟨3, "u".data, [], none, none⟩]).2.2.1 (by decide) (by decide)
    rw [h]
    decide

/-- C5 counterexample: the claim asserts that every recognized-shape URI
normalizes to a key containing the original key tail, but `urlparse` splits
`;params` off the last path segment (the `https` scheme is in
`uses_params`): for the recognized https shape with key
`universities/1/a;b.pdf` the program returns `universities/1/a`, which
contains neither the key tail `a;b.pdf` nor the full key. -/
theorem normalizer_params_counterexample :
    normalizeUri "https://bkt.s3.amazonaws.com/universities/1/a;b.pdf".data =
      "universities/1/a".data ∧
    ¬ ("a;b.pdf".data <:+:
        normalizeUri "https://bkt.s3.amazonaws.com/universities/1/a;b.pdf".data) ∧
    ¬ ("universities/1/a;b.pdf".data <:+:
        normalizeUri "https://bkt.s3.amazonaws.com/universities/1/a;b.pdf".data) := by
  decide

/-- C5 amended (Key/URI Normalizer totality and shapes): the normalization
step is total — by construction it always returns a string, and the one
step that can raise (`urlparse`, e.g. on an unbalanced-bracket netloc) is
caught by the source's `except` fallback.  On the recognized shapes:
`s3://bucket/key` yields exactly `key` (bucket without `/`);
`https://host/key` — covering both `https://bucket.host/key` and
`https://bucket.s3.region.host/key` — yields exactly `key` for a
well-formed bracket-free host (no `/`, `?`, `#`, `[`, `]`) and a key free
of query/fragment/params markers (`?`, `#`, `;`) that does not start with
`/`; when the last path segment does contain `;`, `urlparse` strips the
`;params` suffix, so the returned key need not contain the key tail (see
the counterexample).  When `urlparse` raises on an unbalanced-bracket
netloc and the textual fallback markers are absent, the URI is returned
unchanged.  Any input matching neither recognized prefix is returned
unchanged. -/
theorem normalizer_shapes_amended :
    (∀ bucket key : Str, '/' ∉ bucket →
        normalizeUri ("s3://".data ++ (bucket ++ '/' :: key)) = key) ∧
    (∀ host key : Str, '/' ∉ host → '?' ∉ host → '#' ∉ host →
        '[' ∉ host → ']' ∉ host →
        '?' ∉ key → '#' ∉ key → ';' ∉ key → key.head? ≠ some '/' →
        normalizeUri ("https://".data ++ (host ++ '/' :: key)) = key) ∧
    (∀ host key : Str, '/' ∉ host → '?' ∉ host → '#' ∉ host →
        '[' ∈ host → ']' ∉ host →
        pyIn ".amazonaws.com".data ("https://".data ++ (host ++ '/' :: key)) = false →
        pyIn ".s3.".data ("https://".data ++ (host ++ '/' :: key)) = false →
        normalizeUri ("https://".data ++ (host ++ '/' :: key)) =
          "https://".data ++ (host ++ '/' :: key)) ∧
    (∀ uri : Str, "s3://".data.isPrefixOf uri = false →
        "https://".data.isPrefixOf uri = false → normalizeUri uri = uri) := by
  refine ⟨?_, ?_, ?_, ?_⟩
  · intro bucket key hb
    have hpre : "s3://".data.isPrefixOf
        ("s3://".data ++ (bucket ++ '/' :: key)) = true :=
      List.isPrefixOf_iff_prefix.mpr ⟨bucket ++ '/' :: key, rfl⟩
    have h1 : splitFirst '/' ('s' :: '3' :: ':' :: '/' :: '/' :: (bucket ++ '/' :: key)) =
        some (['s', '3', ':'], '/' :: (bucket ++ '/' :: key)) :=
      splitFirst_append_of_not_mem '/' ['s', '3', ':']
        ('/' :: (bucket ++ '/' :: key)) (by decide)
    have h2 : splitFirst '/' ('/' :: (bucket ++ '/' :: key)) =
        some ([], bucket ++ '/' :: key) := by
      simp [splitFirst]
    have h3 : splitFirst '/' (bucket ++ '/' :: key) = some (bucket, key) :=
      splitFirst_append_of_not_mem '/' bucket key hb
    simp [normalizeUri, hpre, pySplitMax, h1, h2, h3]
  · intro host key hsl hq hh hbl hbrk hkq hkh hks hhead
    have hs3 : "s3://".data.isPrefixOf
        ("https://".data ++ (host ++ '/' :: key)) = false := rfl
    have hhttps : "https://".data.isPrefixOf
        ("https://".data ++ (host ++ '/' :: key)) = true :=
      List.isPrefixOf_iff_prefix.mpr ⟨host ++ '/' :: key, rfl⟩
    have hdrop : ("https://".data ++ (host ++ '/' :: key)).drop 8 =
        host ++ '/' :: key :=
      List.drop_left' (by decide)
    have hnet : (host ++ '/' :: key).takeWhile (fun c => !isNetlocDelim c) =
        host := by
      refine takeWhile_append_cons _ host '/' key ?_ (by decide)
      intro x hx
      have h1 : x ≠ '/' := fun e => hsl (e ▸ hx)
      have h2 : x ≠ '?' := fun e => hq (e ▸ hx)
      have h3 : x ≠ '#' := fun e => hh (e ▸ hx)
      simp [isNetlocDelim, h1, h2, h3]
    have hbrc : ¬ (('[' ∈ host ∧ ']' ∉ host) ∨ (']' ∈ host ∧ '[' ∉ host)) := by
      rintro (⟨h1, _⟩ | ⟨h1, _⟩)
      · exact hbl h1
      · exact hbrk h1
    have hfrag : ('/' :: key).takeWhile (fun c => c ≠ '#') = '/' :: key := by
      refine List.takeWhile_eq_self_iff.mpr ?_
      intro x hx
      have hne : x ≠ '#' := by
        rcases List.mem_cons.mp hx with rfl | hx
        · decide
        · exact fun e => hkh (e ▸ hx)
      simp [hne]
    have hquery : ('/' :: key).takeWhile (fun c => c ≠ '?') = '/' :: key := by
      refine List.takeWhile_eq_self_iff.mpr ?_
      intro x hx
      have hne : x ≠ '?' := by
        rcases List.mem_cons.mp hx with rfl | hx
        · decide
        · exact fun e => hkq (e ▸ hx)
      simp [hne]
    have hsplit : urlsplitPath ("https://".data ++ (host ++ '/' :: key)) =
        some ('/' :: key) := by
      simp only [urlsplitPath, hdrop, hnet]
      rw [if_neg hbrc, List.drop_left, hfrag, hquery]
    have hns : ¬ (';' ∈ ('/' :: key)) := by
      intro hmem
      rcases List.mem_cons.mp hmem with h' | h'
      · exact absurd h' (by decide)
      · exact hks h'
    have hparse : urlparsePath ("https://".data ++ (host ++ '/' :: key)) =
        some ('/' :: key) := by
      simp only [urlparsePath, hsplit]
      rw [if_neg hns]
    have hlstrip : ('/' :: key).dropWhile (fun c => c = '/') = key := by
      rw [List.dropWhile_cons_of_pos (by simp)]
      cases key with
      | nil => rfl
      | cons c k =>
        have hc : ¬ c = '/' := fun e => hhead (by simp [e])
        simp [List.dropWhile_cons, hc]
    have hparseC : urlparsePath
        ('h' :: 't' :: 't' :: 'p' :: 's' :: ':' :: '/' :: '/' :: (host ++ '/' :: key)) =
        some ('/' :: key) := hparse
    simp [normalizeUri, hs3, hhttps, hparseC, hlstrip]
  · intro host key hsl hq hh hbl hbrk hpa hps
    have hs3 : "s3://".data.isPrefixOf
        ("https://".data ++ (host ++ '/' :: key)) = false := rfl
    have hhttps : "https://".data.isPrefixOf
        ("https://".data ++ (host ++ '/' :: key)) = true :=
      List.isPrefixOf_iff_prefix.mpr ⟨host ++ '/' :: key, rfl⟩
    have hdrop : ("https://".data ++ (host ++ '/' :: key)).drop 8 =
        host ++ '/' :: key :=
      List.drop_left' (by decide)
    have hnet : (host ++ '/' :: key).takeWhile (fun c => !isNetlocDelim c) =
        host := by
      refine takeWhile_append_cons _ host '/' key ?_ (by decide)
      intro x hx
      have h1 : x ≠ '/' := fun e => hsl (e ▸ hx)
      have h2 : x ≠ '?' := fun e => hq (e ▸ hx)
      have h3 : x ≠ '#' := fun e => hh (e ▸ hx)
      simp [isNetlocDelim, h1, h2, h3]
    have hsplit : urlsplitPath ("https://".data ++ (host ++ '/' :: key)) =
        none := by
      simp only [urlsplitPath, hdrop, hnet]
      rw [if_pos (Or.inl ⟨hbl, hbrk⟩)]
    have hparse : urlparsePath ("https://".data ++ (host ++ '/' :: key)) =
        none := by
      simp only [urlparsePath, hsplit]
    have hparseC : urlparsePath
        ('h' :: 't' :: 't' :: 'p' :: 's' :: ':' :: '/' :: '/' :: (host ++ '/' :: key)) =
        none := hparse
    have hpaC : pyIn ".amazonaws.com".data
        ('h' :: 't' :: 't' :: 'p' :: 's' :: ':' :: '/' :: '/' :: (host ++ '/' :: key)) =
        false := hpa
    have hpsC : pyIn ".s3.".data
        ('h' :: 't' :: 't' :: 'p' :: 's' :: ':' :: '/' :: '/' :: (host ++ '/' :: key)) =
        false := hps
    simp [normalizeUri, hs3, hhttps, hparseC, httpsExceptFallback, hpaC, hpsC]
  · intro uri h1 h2
    simp [normalizeUri, h1, h2]

/-- Witness for the amended C5: the recognized shapes at concrete URIs,
including a raising unbalanced-bracket netloc that comes back unchanged. -/
theorem normalizer_shapes_amended_witness :
    normalizeUri "s3://my-bucket/universities/1/subjects/2/materials/a.pdf".data =
      "universities/1/subjects/2/materials/a.pdf".data ∧
    normalizeUri "https://my-bucket.s3.amazonaws.com/universities/1/branches/3/b.pdf".data =
      "universities/1/branches/3/b.pdf".data ∧
    normalizeUri "https://my-bucket.s3.us-east-1.amazonaws.com/universities/1/c.pdf".data =
      "universities/1/c.pdf".data ∧
    normalizeUri "https://[host/universities/1/c.pdf".data =
      "https://[host/universities/1/c.pdf".data ∧
    normalizeUri "universities/1/subjects/2/materials/a.pdf".data =
      "universities/1/subjects/2/materials/a.pdf".data := by
  refine ⟨?_, ?_, ?_, ?_, ?_⟩
  · exact normalizer_shapes_amended.1 "my-bucket".data
      "universities/1/subjects/2/materials/a.pdf".data (by decide)
  · exact normalizer_shapes_amended.2.1 "my-bucket.s3.amazonaws.com".data
      "universities/1/branches/3/b.pdf".data (by decide) (by decide) (by decide)
      (by decide) (by decide) (by decide) (by decide) (by decide) (by decide)
  · exact normalizer_shapes_amended.2.1 "my-bucket.s3.us-east-1.amazonaws.com".data
      "universities/1/c.pdf".data (by decide) (by decide) (by decide)
      (by decide) (by decide) (by decide) (by decide) (by decide) (by decide)
  · exact normalizer_shapes_amended.2.2.1 "[host".data
      "universities/1/c.pdf".data (by decide) (by decide) (by decide)
      (by decide) (by decide) (by decide) (by decide)
  · exact normalizer_shapes_amended.2.2.2
      "universities/1/subjects/2/materials/a.pdf".data (by decide) (by decide)
/-- C8 (invalid scope fails loudly and early): with the search service
configured but both `subject_id` and `branch_id` absent, `query_kendra`
returns the `InvalidScope` `ValueError` whatever the search-service response
would have been — the guard at line 122 runs before the `kendra_client.query`
network call, and the error is not converted into an empty result. -/
theorem invalid_scope_raises (kendraDisableFiltering : Bool) (question : Str)
    (universityId : Nat) (maxResults : Nat) (disableFiltering : Bool)
    (responseItems : Option (List KendraItem)) :
    query_kendra true kendraDisableFiltering question universityId none none
        maxResults disableFiltering responseItems =
      Except.error KendraError.invalidScope := rfl

/-- Taking at most the length of the left part of an append stays in the
left part. -/
theorem take_append_of_le_length {α : Type} (n : Nat) (l₁ l₂ : List α)
    (h : n ≤ l₁.length) : (l₁ ++ l₂).take n = l₁.take n := by
  have h1 : (l₁ ++ l₂).take n = ((l₁ ++ l₂).take l₁.length).take n := by
    rw [List.take_take, Nat.min_eq_left h]
  rw [h1, List.take_left]

/-- The collection loop of `query_kendra` is the order-preserving filter of
the response, truncated at `maxResults` (with any partially filled
accumulator). -/
theorem processItems_eq_take (df kdf : Bool) (uid : Nat) (sid bid : Option Nat)
    (q : Str) (maxResults : Nat) :
    ∀ (items : List KendraItem) (acc : List ResultRecord),
      acc.length < maxResults →
      processItems df kdf uid sid bid q maxResults items acc =
        acc ++ ((items.filter (includeItem df kdf uid sid bid q)).map mkResult).take
          (maxResults - acc.length) := by
  intro items
  induction items with
  | nil =>
    intro acc hacc
    simp [processItems]
  | cons item rest ih =>
    intro acc hacc
    cases h1 : shouldInclude df kdf uid sid bid (normalizeUri item.documentUri) with
    | false =>
      have hfilter : includeItem df kdf uid sid bid q item = false := by
        simp [includeItem, h1]
      simp [processItems, h1, hfilter, ih acc hacc]
    | true =>
      cases h2 : excerptPresent (mkResult item) with
      | false =>
        have hfilter : includeItem df kdf uid sid bid q item = false := by
          simp [includeItem, h1, h2]
        simp [processItems, h1, h2, hfilter, ih acc hacc]
      | true =>
        cases h3 : passesQuality (mkResult item) q with
        | false =>
          have hfilter : includeItem df kdf uid sid bid q item = false := by
            simp [includeItem, h1, h2, h3]
          simp [processItems, h1, h2, h3, hfilter, ih acc hacc]
        | true =>
          have hfilter : includeItem df kdf uid sid bid q item = true := by
            simp [includeItem, h1, h2, h3]
          rcases Nat.lt_or_ge (acc.length + 1) maxResults with h4 | h4
          · have hnotle : ¬ maxResults ≤ acc.length + 1 := by omega
            have hlen : (acc ++ [mkResult item]).length < maxResults := by
              simp
              omega
            have hrec := ih (acc ++ [mkResult item]) hlen
            have harith : maxResults - acc.length =
                (maxResults - (acc.length + 1)) + 1 := by omega
            calc processItems df kdf uid sid bid q maxResults (item :: rest) acc
                = processItems df kdf uid sid bid q maxResults rest
                    (acc ++ [mkResult item]) := by
                  simp [processItems, h1, h2, h3, hnotle]
              _ = (acc ++ [mkResult item]) ++
                    ((rest.filter (includeItem df kdf uid sid bid q)).map mkResult).take
                      (maxResults - (acc ++ [mkResult item]).length) := hrec
              _ = acc ++ (((item :: rest).filter
                      (includeItem df kdf uid sid bid q)).map mkResult).take
                      (maxResults - acc.length) := by
                  rw [List.filter_cons, hfilter]
                  simp [harith, List.take_succ_cons, List.append_assoc]
          · have hle : maxResults ≤ acc.length + 1 := h4
            have harith : maxResults - acc.length = 1 := by omega
            calc processItems df kdf uid sid bid q maxResults (item :: rest) acc
                = acc ++ [mkResult item] := by
                  simp [processItems, h1, h2, h3, hle]
              _ = acc ++ (((item :: rest).filter
                      (includeItem df kdf uid sid bid q)).map mkResult).take
                      (maxResults - acc.length) := by
                  rw [List.filter_cons, hfilter]
                  simp [harith]

/-- C7 (over-fetch, cap, and order preservation): the adapter requests
`3 × maxResults` hits from the search service; the accepted list is the
order-preserving filtered prefix truncated at `maxResults`, hence has length
at most `maxResults`; once `maxResults` results are collected the remaining
hits are never evaluated (appending further hits to the response cannot
change the output); and the output is a sublist — same relative order, no
re-sorting — of the response's items. -/
theorem adapter_overfetch_cap_order (df kdf : Bool) (uid : Nat)
    (sid bid : Option Nat) (q : Str) (maxResults : Nat)
    (items extra : List KendraItem) (hmax : 0 < maxResults) :
    requestedPageSize maxResults = 3 * maxResults ∧
    processItems df kdf uid sid bid q maxResults items [] =
      ((items.filter (includeItem df kdf uid sid bid q)).map mkResult).take
        maxResults ∧
    (processItems df kdf uid sid bid q maxResults items []).length ≤ maxResults ∧
    ((processItems df kdf uid sid bid q maxResults items []).length = maxResults →
      processItems df kdf uid sid bid q maxResults (items ++ extra) [] =
        processItems df kdf uid sid bid q maxResults items []) ∧
    (processItems df kdf uid sid bid q maxResults items []).Sublist
      (items.map mkResult) := by
  have heq := processItems_eq_take df kdf uid sid bid q maxResults items []
    (by simpa using hmax)
  simp only [List.nil_append, Nat.sub_zero, List.length_nil] at heq
  have heq2 := processItems_eq_take df kdf uid sid bid q maxResults
    (items ++ extra) [] (by simpa using hmax)
  simp only [List.nil_append, Nat.sub_zero, List.length_nil] at heq2
  refine ⟨by simp [requestedPageSize, Nat.mul_comm], heq, ?_, ?_, ?_⟩
  · rw [heq]
    exact List.length_take_le _ _
  · intro hfull
    have hA : maxResults ≤
        ((items.filter (includeItem df kdf uid sid bid q)).map mkResult).length := by
      rw [heq] at hfull
      rw [List.length_take] at hfull
      omega
    rw [heq2, heq, List.filter_append, List.map_append,
      take_append_of_le_length maxResults _ _ hA]
  · rw [heq]
    exact (List.take_sublist _ _).trans
      ((List.filter_sublist _).map mkResult)

/-- Witness for C7 at `maxResults = 1` with one in-scope DOCUMENT hit. -/
theorem adapter_overfetch_cap_order_witness :
    requestedPageSize 1 = 3 * 1 ∧
    (processItems false false 1 (some 2) none [] 1
      [{ documentUri := "universities/1/subjects/2/materials/a.pdf".data,
         itemType := none,
         documentTitle := TitleField.strTitle "Doc".data,
         documentExcerptText :=
           some "This excerpt has more than thirty characters total.".data,
         answerText := none, excerptPageNumber := none,
         additionalPageNumber := none, excerptMetadataPageNumber := none,
         scoreConfidence := none }] []).length ≤ 1 := by
  have h := adapter_overfetch_cap_order false false 1 (some 2) none [] 1
    [{ documentUri := "universities/1/subjects/2/materials/a.pdf".data,
       itemType := none,
       documentTitle := TitleField.strTitle "Doc".data,
       documentExcerptText :=
         some "This excerpt has more than thirty characters total.".data,
       answerText := none, excerptPageNumber := none,
       additionalPageNumber := none, excerptMetadataPageNumber := none,
       scoreConfidence := none }] [] (by decide)
  exact ⟨h.1, h.2.2.1⟩

/-- C10 (quality verdict independent of relevance tier): the quality filter
returns the same verdict on two results that differ only in their
`relevance_score` field; item inclusion in the adapter loop is likewise
unchanged by the `ScoreConfidence` value (present or absent), which only
flows into the reported `relevance_score` output field. -/
theorem quality_verdict_ignores_relevance :
    (∀ (result : ResultRecord) (v : Str) (question : Str),
        isQualityResult { result with relevanceScore := v } question
            qualityMinExcerptLength =
          isQualityResult result question qualityMinExcerptLength) ∧
    (∀ (item : KendraItem) (v : Option Str) (df kdf : Bool) (uid : Nat)
        (sid bid : Option Nat) (question : Str),
        includeItem df kdf uid sid bid question { item with scoreConfidence := v } =
          includeItem df kdf uid sid bid question item) ∧
    (∀ (item : KendraItem) (v : Option Str),
        mkResult { item with scoreConfidence := v } =
          { mkResult item with relevanceScore := v.getD "MEDIUM".data }) := by
  refine ⟨?_, ?_, ?_⟩
  · intro result v question
    cases result
    rfl
  · intro item v df kdf uid sid bid question
    cases item
    rfl
  · intro item v
    cases item
    rfl

/-- C4 (turn durability and non-abort): in every chat turn the USER message
is persisted strictly before the model is called; for every failing model
call the answer becomes `"Error: " + str(e)`; a BOT message carrying the
final answer and post-processed sources is always persisted; and the reply is
always returned with the post-processed citations — the turn never aborts on
a model failure. -/
theorem turn_durability (chatTitle : Option Str) (question : Str)
    (sources : List CitationRecord) (fullPrompt : Str)
    (modelResult : Except Str Str) :
    (∃ i j : Nat, i < j ∧
      (sendMessageTurn chatTitle question sources fullPrompt modelResult).1[i]? =
        some (TurnEvent.persistUser question) ∧
      (sendMessageTurn chatTitle question sources fullPrompt modelResult).1[j]? =
        some (TurnEvent.callModel fullPrompt)) ∧
    (∀ e, modelResult = .error e →
      (sendMessageTurn chatTitle question sources fullPrompt modelResult).2.answer =
        "Error: ".data ++ e) ∧
    (TurnEvent.persistBot
        (sendMessageTurn chatTitle question sources fullPrompt modelResult).2.answer
        (botMessageSources
          (sendMessageTurn chatTitle question sources fullPrompt modelResult).2.answer
          sources) ∈
      (sendMessageTurn chatTitle question sources fullPrompt modelResult).1) ∧
    (sendMessageTurn chatTitle question sources fullPrompt modelResult).2.sources =
      finalSources
        (sendMessageTurn chatTitle question sources fullPrompt modelResult).2.answer
        sources := by
  refine ⟨?_, ?_, ?_, rfl⟩
  · cases ht : (updateChatTitle chatTitle question).2 with
    | none =>
      exact ⟨0, 1, by omega, by simp [sendMessageTurn, ht],
        by simp [sendMessageTurn, ht]⟩
    | some t =>
      exact ⟨0, 2, by omega, by simp [sendMessageTurn, ht],
        by simp [sendMessageTurn, ht]⟩
  · intro e he
    simp [sendMessageTurn, he]
  · cases ht : (updateChatTitle chatTitle question).2 with
    | none => simp [sendMessageTurn, ht]
    | some t => simp [sendMessageTurn, ht]

/-- Witness for C4: a failing model call (`boom`) still yields a reply whose
answer surfaces the error text. -/
theorem turn_durability_witness :
    (sendMessageTurn (some "New chat".data) "What is an index".data []
        "prompt".data (Except.error "boom".data)).2.answer =
      "Error: ".data ++ "boom".data :=
  (turn_durability (some "New chat".data) "What is an index".data []
    "prompt".data (Except.error "boom".data)).2.1 "boom".data rfl

/-- C9 counterexample: on the 41-character single-word question `"aaa…a"`
the derived title is the first 40 characters — a mid-word cut (the title is
not followed by a whitespace boundary), while the longest whitespace-bounded
prefix of length ≤ 40 demanded by the claim is empty; so the claim's "cut at
the last whitespace boundary … (never mid-word) — i.e. the longest
whitespace-bounded prefix of length ≤ 40" is false of the code. -/
theorem auto_title_counterexample :
    deriveTitle (List.replicate 41 'a') = List.replicate 40 'a' ∧
    specLongestTitle (List.replicate 41 'a') = [] ∧
    deriveTitle (List.replicate 41 'a') ≠
      specLongestTitle (List.replicate 41 'a') := by
  decide

/-- C9 amended: for a placeholder-titled chat the derived title is the
stripped question itself when that is at most 40 characters; otherwise it is
the 40-character truncation cut back to before the LAST space occurring
within those 40 characters (so the last, possibly partial, space-separated
token of the truncation is always dropped), and when the first 40 characters
contain no space the title is the full 40-character truncation, cut mid-word.
The result never exceeds 40 characters.  The derivation runs exactly on the
messages that see a placeholder title (`"New chat"`, `"Branch Chat"`, null):
once a non-placeholder title is stored, later messages leave it unchanged. -/
theorem auto_title_amended :
    (∀ question : Str, (pyStrip question).length ≤ 40 →
        deriveTitle question = pyStrip question) ∧
    (∀ question : Str, (deriveTitle question).length ≤ 40) ∧
    (∀ question : Str, 40 < (pyStrip question).length →
        ' ' ∉ (pyStrip question).take 40 →
        deriveTitle question = (pyStrip question).take 40) ∧
    (∀ question : Str, 40 < (pyStrip question).length →
        ' ' ∈ (pyStrip question).take 40 →
        ∃ rest, (pyStrip question).take 40 = deriveTitle question ++ ' ' :: rest ∧
          ' ' ∉ rest) ∧
    (∀ (chatTitle : Option Str) (question : Str),
        chatTitle ∉ defaultTitles →
        updateChatTitle chatTitle question = (chatTitle, none)) ∧
    (∀ (chatTitle : Option Str) (question : Str),
        chatTitle ∈ defaultTitles →
        updateChatTitle chatTitle question =
          (some (deriveTitle question), some (deriveTitle question))) := by
  have hshort : ∀ question : Str, (pyStrip question).length ≤ 40 →
      deriveTitle question = pyStrip question := by
    intro question h
    simp only [deriveTitle]
    rw [if_neg (by omega)]
  refine ⟨hshort, ?_, ?_, ?_, ?_, ?_⟩
  · intro question
    by_cases hlen : 40 < (pyStrip question).length
    · simp only [deriveTitle]
      rw [if_pos hlen]
      by_cases hsp : ' ' ∈ (pyStrip question).take 40
      · obtain ⟨rest, hr1, _⟩ := pyRsplitLast_spec ' ' _ hsp
        have hlc := congrArg List.length hr1
        have h40 : ((pyStrip question).take 40).length ≤ 40 :=
          List.length_take_le _ _
        simp [List.length_append] at hlc
        omega
      · rw [pyRsplitLast, if_neg hsp]
        exact List.length_take_le _ _
    · rw [hshort question (by omega)]
      omega
  · intro question hlen hsp
    simp only [deriveTitle]
    rw [if_pos hlen, pyRsplitLast, if_neg hsp]
  · intro question hlen hsp
    have hd : deriveTitle question = pyRsplitLast ' ' ((pyStrip question).take 40) := by
      simp only [deriveTitle]
      rw [if_pos hlen]
    obtain ⟨rest, hr1, hr2⟩ := pyRsplitLast_spec ' ' _ hsp
    exact ⟨rest, by rw [hd]; exact hr1, hr2⟩
  · intro chatTitle question h
    simp [updateChatTitle, h]
  · intro chatTitle question h
    simp [updateChatTitle, h]

/-- Witness for the amended C9 at the claim's own example question: the
derived title is `"What is normalization in DBMS and why"` (the trailing
`"do"` of the 40-character truncation is dropped at the last space), and a
placeholder-titled chat receives it. -/
theorem auto_title_amended_witness :
    deriveTitle "What is normalization in DBMS and why do we use it for reducing redundancy?".data =
      "What is normalization in DBMS and why".data ∧
    (∃ rest,
      (pyStrip "What is normalization in DBMS and why do we use it for reducing redundancy?".data).take 40 =
        deriveTitle "What is normalization in DBMS and why do we use it for reducing redundancy?".data ++
          ' ' :: rest ∧ ' ' ∉ rest) ∧
    updateChatTitle (some "New chat".data)
        "What is normalization in DBMS and why do we use it for reducing redundancy?".data =
      (some "What is normalization in DBMS and why".data,
       some "What is normalization in DBMS and why".data) := by
  refine ⟨by decide, ?_, ?_⟩
  · exact auto_title_amended.2.2.2.1 _ (by decide) (by decide)
  · have h := auto_title_amended.2.2.2.2.2 (some "New chat".data)
      "What is normalization in DBMS and why do we use it for reducing redundancy?".data
      (by decide)
    rw [h]
    decide

end StudyTap
